import Mathlib

/-!
Shallow embedding of the Steam Pad Simulator plugin
(`src/hhd/plugins/steam_pad_simulator/__init__.py`): the event-translation
loop `SteamPadSimulatorPlugin._input_thread_loop` and the configuration
handler `SteamPadSimulatorPlugin.update`, together with theorems checking
the specification's claims about them.

Raw input events are evdev `(type, code, value)` triples; the numeric
constants below are the evdev codes the source matches on.  Python float
arithmetic on the sensitivity is modelled over `ℚ` (all values involved in
the claims are exactly representable), and Python's `int(...)` cast is
truncation toward zero.
-/

namespace SPS

/-- evdev `EV_SYN` event type (sync frame marker). -/
def EV_SYN : Nat := 0

/-- evdev `EV_KEY` event type (key/button). -/
def EV_KEY : Nat := 1

/-- evdev `EV_ABS` event type (absolute axis). -/
def EV_ABS : Nat := 3

/-- evdev `ABS_X` axis code. -/
def ABS_X : Nat := 0

/-- evdev `ABS_Y` axis code. -/
def ABS_Y : Nat := 1

/-- evdev `BTN_TOUCH` button code. -/
def BTN_TOUCH : Nat := 330

/-- Source constant `SCREEN_WIDTH = 1920`. -/
def SCREEN_WIDTH : ℤ := 1920

/-- Source constant `SCREEN_HEIGHT = 1080`. -/
def SCREEN_HEIGHT : ℤ := 1080

/-- A raw evdev event as read from the source device: `(type, code, value)`. -/
structure RawEvent where
  etype : Nat
  code : Nat
  value : ℤ
deriving DecidableEq

/-- Logical screen side, the values of the Python string `side`
(`'left'` / `'right'`). -/
inductive Side
  | left
  | right
deriving DecidableEq

/-- The Python string value carried by a `Side`. -/
def sideStr : Side → String
  | Side.left => "left"
  | Side.right => "right"

/-- Overlay id built at touch-start and touch-end:
the f-string `sps_debug_` followed by the side string. -/
def debugId (side : Side) : String := "sps_debug_" ++ sideStr side

/-- Region resolver, from
`side = 'left' if state['x'] < SCREEN_WIDTH / 2 else 'right'`.
Python `/` on ints is float division, hence the comparison over `ℚ`. -/
def resolveSide (x screen_width : ℤ) : Side :=
  if (x : ℚ) < (screen_width : ℚ) / 2 then Side.left else Side.right

/-- The loop's mutable state dict
`state = {touching: None, x: 0, y: 0, last_x: 0, last_y: 0}`. -/
structure LoopState where
  touching : Option Side
  x : ℤ
  y : ℤ
  last_x : ℤ
  last_y : ℤ
deriving DecidableEq

/-- The state dict's initial value. -/
def initState : LoopState :=
  { touching := none, x := 0, y := 0, last_x := 0, last_y := 0 }

/-- The plugin fields the loop reads live on each event:
`self.sensitivity`, `self.enable_haptics`, `self.show_debug_borders`. -/
structure Config where
  sensitivity : ℚ
  enable_haptics : Bool
  show_debug_borders : Bool
deriving DecidableEq

/-- Relative axis written to the virtual device (`REL_X` / `REL_Y`). -/
inductive RelAxis
  | relX
  | relY
deriving DecidableEq

/-- A command record passed to `self.emit.inject(...)`. -/
inductive Command
  | rumble (strong_magnitude weak_magnitude : ℚ)
  | overlayShow (id : String) (x y width height : ℚ)
      (color : ℤ × ℤ × ℤ × ℤ) (border_size : ℤ)
  | overlayHide (id : String)
deriving DecidableEq

/-- One observable output of the loop body: a relative-motion write or a
`syn()` frame-sync on the virtual device, or an injected command. -/
inductive Output
  | write (axis : RelAxis) (delta : ℤ)
  | syn
  | inject (cmd : Command)
deriving DecidableEq

/-- Python's `int(...)` cast on a real number: truncation toward zero. -/
def intTrunc (q : ℚ) : ℤ := if 0 ≤ q then ⌊q⌋ else ⌈q⌉

/-- First block of the loop body (`if event.type == e.EV_ABS: ...`):
collect the coordinates. -/
def stepAbs (s : LoopState) (ev : RawEvent) : LoopState :=
  if ev.etype = EV_ABS then
    if ev.code = ABS_X then { s with x := ev.value }
    else if ev.code = ABS_Y then { s with y := ev.value }
    else s
  else s

/-- The `border_rect` dict literal built at touch-start when debug borders
are enabled: screen-half rectangle, semi-transparent red, border size 5. -/
def borderRect (side : Side) : Command :=
  Command.overlayShow (debugId side)
    (if side = Side.left then 0 else (SCREEN_WIDTH : ℚ) / 2) 0
    ((SCREEN_WIDTH : ℚ) / 2) (SCREEN_HEIGHT : ℚ)
    (255, 0, 0, 100) 5

/-- Second block of the loop body
(`if event.type == e.EV_KEY and event.code == e.BTN_TOUCH: ...`):
touch-start and touch-end handling, haptics and debug borders. -/
def stepKey (cfg : Config) (s : LoopState) (ev : RawEvent) :
    LoopState × List Output :=
  if ev.etype = EV_KEY ∧ ev.code = BTN_TOUCH then
    let side := resolveSide s.x SCREEN_WIDTH
    if ev.value = 1 ∧ s.touching = none then
      let s' := { s with touching := some side, last_x := s.x, last_y := s.y }
      let haptic : List Output :=
        if cfg.enable_haptics then
          [Output.inject (Command.rumble 0.6 0.6),
           Output.inject (Command.rumble 0 0)]
        else []
      let border : List Output :=
        if cfg.show_debug_borders then [Output.inject (borderRect side)]
        else []
      (s', haptic ++ border)
    else
      match s.touching with
      | some side0 =>
        if ev.value = 0 then
          ({ s with touching := none },
           if cfg.show_debug_borders then
             [Output.inject (Command.overlayHide (debugId side0))]
           else [])
        else (s, [])
      | none => (s, [])
  else (s, [])

/-- Third block of the loop body
(`if event.type == e.EV_SYN and state['touching']: ...`):
scaled relative deltas, writes, `syn()`, baseline update. -/
def stepSyn (cfg : Config) (s : LoopState) (ev : RawEvent) :
    LoopState × List Output :=
  if ev.etype = EV_SYN ∧ s.touching ≠ none then
    let delta_x := intTrunc (((s.x - s.last_x : ℤ) : ℚ) * cfg.sensitivity)
    let delta_y := intTrunc (((s.y - s.last_y : ℤ) : ℚ) * cfg.sensitivity)
    let wx : List Output :=
      if delta_x ≠ 0 then [Output.write RelAxis.relX delta_x] else []
    let wy : List Output :=
      if delta_y ≠ 0 then [Output.write RelAxis.relY delta_y] else []
    ({ s with last_x := s.x, last_y := s.y }, wx ++ wy ++ [Output.syn])
  else (s, [])

/-- One iteration of the loop body on one event: the three blocks run in
sequence on the same event (they are separate `if`s in the source). -/
def step (cfg : Config) (s : LoopState) (ev : RawEvent) :
    LoopState × List Output :=
  let s1 := stepAbs s ev
  let p2 := stepKey cfg s1 ev
  let p3 := stepSyn cfg p2.1 ev
  (p3.1, p2.2 ++ p3.2)

/-- Run the loop body over a list of events with no cancellation,
collecting the outputs in order. -/
def runFrom (cfg : Config) (s : LoopState) : List RawEvent → LoopState × List Output
  | [] => (s, [])
  | ev :: rest =>
    let p := step cfg s ev
    let q := runFrom cfg p.1 rest
    (q.1, p.2 ++ q.2)

/-- Run the loop with a cancellation signal: `cancel i` is the value of
`self.stop_thread.is_set()` observed at iteration `i`, checked right after
the blocking read and before the event is processed
(`if self.stop_thread.is_set(): break`). -/
def runAux (cfg : Config) (cancel : Nat → Bool) :
    Nat → LoopState → List RawEvent → LoopState × List Output
  | _, s, [] => (s, [])
  | i, s, ev :: rest =>
    if cancel i then (s, [])
    else
      let p := step cfg s ev
      let q := runAux cfg cancel (i + 1) p.1 rest
      (q.1, p.2 ++ q.2)

/-- Observable resource/output trace of one `_input_thread_loop` run. -/
inductive TraceEv
  | createVirtual
  | openSource
  | closeVirtual
  | out (o : Output)
deriving DecidableEq

/-- The whole `_input_thread_loop` body.  `uinputOk` is whether the
`UInput(...)` constructor succeeds, `sourceOk` whether
`InputDevice(self.touch_device_path)` succeeds; on an exception the
`except` clause logs and returns.  `events` is the finite stream produced
by `read_loop()` (its end models natural stream end).  After the loop,
`if self.virtual_controller: self.virtual_controller.close()`. -/
def inputThreadLoop (uinputOk sourceOk : Bool) (cfg : Config)
    (cancel : Nat → Bool) (events : List RawEvent) : List TraceEv :=
  if uinputOk = false then []
  else if sourceOk = false then [TraceEv.createVirtual]
  else
    [TraceEv.createVirtual, TraceEv.openSource] ++
      (runAux cfg cancel 0 initState events).2.map TraceEv.out ++
      [TraceEv.closeVirtual]

/-- Number of `close()` calls on the virtual device in a trace. -/
def closeCount : List TraceEv → Nat
  | [] => 0
  | TraceEv.closeVirtual :: rest => closeCount rest + 1
  | _ :: rest => closeCount rest

/-- Number of `syn()` calls in an output list. -/
def synCount : List Output → Nat
  | [] => 0
  | Output.syn :: rest => synCount rest + 1
  | _ :: rest => synCount rest

/-- Number of relative writes on a given axis in an output list. -/
def writeCount (axis : RelAxis) : List Output → Nat
  | [] => 0
  | Output.write a _ :: rest =>
    (if a = axis then 1 else 0) + writeCount axis rest
  | _ :: rest => writeCount axis rest

/-- The overlay commands of an output list, in order (rumble commands and
device writes dropped). -/
def overlayCmds : List Output → List Command
  | [] => []
  | Output.inject (Command.overlayShow i x y w h c b) :: rest =>
    Command.overlayShow i x y w h c b :: overlayCmds rest
  | Output.inject (Command.overlayHide i) :: rest =>
    Command.overlayHide i :: overlayCmds rest
  | _ :: rest => overlayCmds rest

/-- Specification-side checker for overlay pairing: starting from the side
currently shown (if any), shows and hides must alternate and every hide
must carry the id of the show that opened it. -/
def pairedFrom : Option Side → List Command → Bool
  | _, [] => true
  | none, Command.overlayShow i _ _ _ _ _ _ :: rest =>
    if i = debugId Side.left then pairedFrom (some Side.left) rest
    else if i = debugId Side.right then pairedFrom (some Side.right) rest
    else false
  | none, Command.overlayHide _ :: _ => false
  | none, Command.rumble _ _ :: rest => pairedFrom none rest
  | some side, Command.overlayHide i :: rest =>
    i = debugId side && pairedFrom none rest
  | some _, Command.overlayShow _ _ _ _ _ _ _ :: _ => false
  | some side, Command.rumble _ _ :: rest => pairedFrom (some side) rest

/-- The plugin fields `SteamPadSimulatorPlugin.update` reads and writes.
`input_thread` is the thread handle currently stored in
`self.input_thread` (an id, `none` before any thread was started; the
source never resets it to `None` after a join). -/
structure PluginState where
  enabled : Bool
  touch_device_path : String
  sensitivity : ℚ
  enable_haptics : Bool
  show_debug_borders : Bool
  input_thread : Option Nat
deriving DecidableEq

/-- The values `update` extracts from the configuration section
(defaults already applied by `.get`). -/
structure UpdateConf where
  enable : Bool
  device_path : String
  sensitivity : ℚ
  enable_haptics : Bool
  show_debug_borders : Bool
deriving DecidableEq

/-- Thread lifecycle actions `update` performs, in order:
`stopJoin t` is `self.stop_thread.set(); self.input_thread.join()` on the
thread `t`, `start t` is creating and starting a new loop thread `t`. -/
inductive ThreadAction
  | stopJoin (t : Nat)
  | start (t : Nat)
deriving DecidableEq

/-- `SteamPadSimulatorPlugin.update(conf)`.  `newId` is the id of the
thread that would be created if one is started.  Returns the new plugin
state and the thread actions performed, in order. -/
def update (p : PluginState) (c : UpdateConf) (newId : Nat) :
    PluginState × List ThreadAction :=
  let p1 := { p with enable_haptics := c.enable_haptics,
                     show_debug_borders := c.show_debug_borders }
  if p1.enabled ≠ c.enable ∨ p1.touch_device_path ≠ c.device_path then
    let p2 := { p1 with enabled := c.enable,
                        touch_device_path := c.device_path }
    let stopActs : List ThreadAction :=
      match p2.input_thread with
      | some t => [ThreadAction.stopJoin t]
      | none => []
    if p2.enabled then
      ({ p2 with input_thread := some newId, sensitivity := c.sensitivity },
       stopActs ++ [ThreadAction.start newId])
    else
      ({ p2 with sensitivity := c.sensitivity }, stopActs)
  else
    ({ p1 with sensitivity := c.sensitivity }, [])

/-- A touch-button press event (`BTN_TOUCH`, value 1). -/
def evTouchDown : RawEvent := { etype := EV_KEY, code := BTN_TOUCH, value := 1 }

/-- A touch-button release event (`BTN_TOUCH`, value 0). -/
def evTouchUp : RawEvent := { etype := EV_KEY, code := BTN_TOUCH, value := 0 }

/-- A sync frame (`EV_SYN`, `SYN_REPORT`). -/
def evSyncFrame : RawEvent := { etype := EV_SYN, code := 0, value := 0 }

/-- An `ABS_X` axis update. -/
def evAbsX (v : ℤ) : RawEvent := { etype := EV_ABS, code := ABS_X, value := v }

/-- An `ABS_Y` axis update. -/
def evAbsY (v : ℤ) : RawEvent := { etype := EV_ABS, code := ABS_Y, value := v }

/-- Test configuration with sensitivity 2.0, haptics and borders off. -/
def cfgSens2 : Config :=
  { sensitivity := 2, enable_haptics := false, show_debug_borders := false }

/-- Event stream of the sensitivity-2 scenario: touch-start at (100,100),
axis update to (110,100), then a sync frame. -/
def evsSens2 : List RawEvent :=
  [evAbsX 100, evAbsY 100, evTouchDown, evAbsX 110, evSyncFrame]

/-- Test configuration with fractional sensitivity 0.5. -/
def cfgSensHalf : Config :=
  { sensitivity := 1 / 2, enable_haptics := false, show_debug_borders := false }

/-- Events of the fractional-sensitivity scenario up to (but not
including) the sync frame: touch-start at (100,100), then `x` moves to
101. -/
def evsSensHalf : List RawEvent :=
  [evAbsX 100, evAbsY 100, evTouchDown, evAbsX 101]

/-- Test configuration with debug borders on, haptics off. -/
def cfgBorders : Config :=
  { sensitivity := 1, enable_haptics := false, show_debug_borders := true }

/-- A state in mid-touch on the left side with no pending movement. -/
def sTouchingLeft : LoopState :=
  { touching := some Side.left, x := 5, y := 6, last_x := 5, last_y := 6 }

/-- An idle test plugin state for the `update` claims. -/
def pRunning : PluginState :=
  { enabled := true, touch_device_path := "/dev/input/event5",
    sensitivity := 1, enable_haptics := true, show_debug_borders := false,
    input_thread := some 0 }

/-- An update configuration identical to `pRunning` in `enable` and
`device_path` but with different live-read fields. -/
def cSame : UpdateConf :=
  { enable := true, device_path := "/dev/input/event5",
    sensitivity := 3, enable_haptics := false, show_debug_borders := true }

/-! ## Step characterization lemmas -/

theorem stepAbs_touching (s : LoopState) (ev : RawEvent) :
    (stepAbs s ev).touching = s.touching := by
  simp only [stepAbs]; split_ifs <;> rfl

theorem stepAbs_last_x (s : LoopState) (ev : RawEvent) :
    (stepAbs s ev).last_x = s.last_x := by
  simp only [stepAbs]; split_ifs <;> rfl

theorem stepAbs_last_y (s : LoopState) (ev : RawEvent) :
    (stepAbs s ev).last_y = s.last_y := by
  simp only [stepAbs]; split_ifs <;> rfl

theorem stepAbs_of_ne (s : LoopState) (ev : RawEvent) (h : ev.etype ≠ EV_ABS) :
    stepAbs s ev = s := by
  simp only [stepAbs]; rw [if_neg h]

theorem stepKey_of_ne (cfg : Config) (s : LoopState) (ev : RawEvent)
    (h : ¬(ev.etype = EV_KEY ∧ ev.code = BTN_TOUCH)) :
    stepKey cfg s ev = (s, []) := by
  simp only [stepKey]; rw [if_neg h]

theorem stepSyn_of_ne (cfg : Config) (s : LoopState) (ev : RawEvent)
    (h : ¬(ev.etype = EV_SYN ∧ s.touching ≠ none)) :
    stepSyn cfg s ev = (s, []) := by
  simp only [stepSyn]; rw [if_neg h]

theorem stepKey_start (cfg : Config) (s : LoopState) (ev : RawEvent)
    (h1 : ev.etype = EV_KEY) (h2 : ev.code = BTN_TOUCH)
    (h3 : ev.value = 1) (h4 : s.touching = none) :
    stepKey cfg s ev =
      ({ s with touching := some (resolveSide s.x SCREEN_WIDTH),
                last_x := s.x, last_y := s.y },
       (if cfg.enable_haptics then
          [Output.inject (Command.rumble 0.6 0.6),
           Output.inject (Command.rumble 0 0)]
        else []) ++
       (if cfg.show_debug_borders then
          [Output.inject (borderRect (resolveSide s.x SCREEN_WIDTH))]
        else [])) := by
  simp only [stepKey]
  rw [if_pos ⟨h1, h2⟩, if_pos ⟨h3, h4⟩]

theorem stepKey_end (cfg : Config) (s : LoopState) (ev : RawEvent) (side0 : Side)
    (h0 : s.touching = some side0) (h1 : ev.etype = EV_KEY)
    (h2 : ev.code = BTN_TOUCH) (h3 : ev.value = 0) :
    stepKey cfg s ev =
      ({ s with touching := none },
       if cfg.show_debug_borders then
         [Output.inject (Command.overlayHide (debugId side0))]
       else []) := by
  simp only [stepKey]
  rw [if_pos ⟨h1, h2⟩,
    if_neg (fun hc => by rw [h3] at hc; exact absurd hc.1 (by decide)), h0]
  simp [h3]

theorem stepKey_none_nonpress (cfg : Config) (s : LoopState) (ev : RawEvent)
    (h4 : s.touching = none) (h3 : ev.value ≠ 1) :
    stepKey cfg s ev = (s, []) := by
  simp only [stepKey]
  split
  · rw [if_neg (fun hc => h3 hc.1), h4]
  · rfl

theorem stepKey_some_press (cfg : Config) (s : LoopState) (ev : RawEvent) (side0 : Side)
    (h0 : s.touching = some side0) (h3 : ev.value ≠ 0) :
    stepKey cfg s ev = (s, []) := by
  simp only [stepKey]
  split
  · rw [if_neg (fun hc => by rw [h0] at hc; exact Option.noConfusion hc.2), h0]
  · rfl

theorem step_start (cfg : Config) (s : LoopState) (ev : RawEvent)
    (h1 : ev.etype = EV_KEY) (h2 : ev.code = BTN_TOUCH)
    (h3 : ev.value = 1) (h4 : s.touching = none) :
    step cfg s ev =
      ({ s with touching := some (resolveSide s.x SCREEN_WIDTH),
                last_x := s.x, last_y := s.y },
       (if cfg.enable_haptics then
          [Output.inject (Command.rumble 0.6 0.6),
           Output.inject (Command.rumble 0 0)]
        else []) ++
       (if cfg.show_debug_borders then
          [Output.inject (borderRect (resolveSide s.x SCREEN_WIDTH))]
        else [])) := by
  have hab : stepAbs s ev = s := stepAbs_of_ne s ev (by rw [h1]; decide)
  have hkey := stepKey_start cfg s ev h1 h2 h3 h4
  have hsyn : ∀ t : LoopState, stepSyn cfg t ev = (t, []) := fun t =>
    stepSyn_of_ne cfg t ev (fun hc => by rw [h1] at hc; exact absurd hc.1 (by decide))
  simp only [step, hab, hkey, hsyn]
  simp

theorem step_end (cfg : Config) (s : LoopState) (ev : RawEvent) (side0 : Side)
    (h0 : s.touching = some side0) (h1 : ev.etype = EV_KEY)
    (h2 : ev.code = BTN_TOUCH) (h3 : ev.value = 0) :
    step cfg s ev =
      ({ s with touching := none },
       if cfg.show_debug_borders then
         [Output.inject (Command.overlayHide (debugId side0))]
       else []) := by
  have hab : stepAbs s ev = s := stepAbs_of_ne s ev (by rw [h1]; decide)
  have hkey := stepKey_end cfg s ev side0 h0 h1 h2 h3
  have hsyn : ∀ t : LoopState, stepSyn cfg t ev = (t, []) := fun t =>
    stepSyn_of_ne cfg t ev (fun hc => by rw [h1] at hc; exact absurd hc.1 (by decide))
  simp only [step, hab, hkey, hsyn]
  simp

theorem step_syn (cfg : Config) (s : LoopState) (ev : RawEvent)
    (h1 : ev.etype = EV_SYN) (h2 : s.touching ≠ none) :
    step cfg s ev =
      ({ s with last_x := s.x, last_y := s.y },
       (if intTrunc (((s.x - s.last_x : ℤ) : ℚ) * cfg.sensitivity) ≠ 0 then
          [Output.write RelAxis.relX
            (intTrunc (((s.x - s.last_x : ℤ) : ℚ) * cfg.sensitivity))]
        else []) ++
       (if intTrunc (((s.y - s.last_y : ℤ) : ℚ) * cfg.sensitivity) ≠ 0 then
          [Output.write RelAxis.relY
            (intTrunc (((s.y - s.last_y : ℤ) : ℚ) * cfg.sensitivity))]
        else []) ++
       [Output.syn]) := by
  have hab : stepAbs s ev = s := stepAbs_of_ne s ev (by rw [h1]; decide)
  have hkey : stepKey cfg s ev = (s, []) :=
    stepKey_of_ne cfg s ev (fun hc => by rw [h1] at hc; exact absurd hc.1 (by decide))
  have hsyn : stepSyn cfg s ev =
      ({ s with last_x := s.x, last_y := s.y },
       (if intTrunc (((s.x - s.last_x : ℤ) : ℚ) * cfg.sensitivity) ≠ 0 then
          [Output.write RelAxis.relX
            (intTrunc (((s.x - s.last_x : ℤ) : ℚ) * cfg.sensitivity))]
        else []) ++
       (if intTrunc (((s.y - s.last_y : ℤ) : ℚ) * cfg.sensitivity) ≠ 0 then
          [Output.write RelAxis.relY
            (intTrunc (((s.y - s.last_y : ℤ) : ℚ) * cfg.sensitivity))]
        else []) ++
       [Output.syn]) := by
    simp only [stepSyn]
    rw [if_pos ⟨h1, h2⟩]
  simp only [step, hab, hkey, hsyn]
  simp

theorem runFrom_append (cfg : Config) (s : LoopState) (l1 l2 : List RawEvent) :
    runFrom cfg s (l1 ++ l2) =
      ((runFrom cfg (runFrom cfg s l1).1 l2).1,
       (runFrom cfg s l1).2 ++ (runFrom cfg (runFrom cfg s l1).1 l2).2) := by
  induction l1 generalizing s with
  | nil => simp [runFrom]
  | cons ev rest ih => simp [runFrom, ih, List.append_assoc]

/-! ## Claim theorems -/

/-- C3: `intTrunc` is truncation toward zero (it is odd, and shrinks the
absolute value by less than one — precisely the integer-cast rounding),
and the concrete sensitivity-2.0 scenario — touch-start at (100,100),
axis update to (110,100), then a sync — produces exactly one relative-X
write of +20, no relative-Y write, and exactly one `syn()` call. -/
theorem scaledDeltaTruncation :
    (∀ q : ℚ, intTrunc (-q) = -intTrunc q) ∧
    (∀ q : ℚ, |(intTrunc q : ℚ)| ≤ |q| ∧ |q| < |(intTrunc q : ℚ)| + 1) ∧
    (runFrom cfgSens2 initState evsSens2).2 =
      [Output.write RelAxis.relX 20, Output.syn] := by
  refine ⟨?_, ?_, ?_⟩
  · intro q
    unfold intTrunc
    rcases lt_trichotomy q 0 with hq | hq | hq
    · rw [if_pos (by linarith : (0:ℚ) ≤ -q), if_neg (not_le.mpr hq), Int.floor_neg]
    · subst hq; norm_num
    · rw [if_neg (by simpa using hq : ¬(0:ℚ) ≤ -q), if_pos hq.le, Int.ceil_neg]
  · intro q
    unfold intTrunc
    by_cases hq : 0 ≤ q
    · rw [if_pos hq]
      have h1 : (0:ℚ) ≤ (⌊q⌋ : ℚ) := by exact_mod_cast Int.floor_nonneg.mpr hq
      rw [abs_of_nonneg hq, abs_of_nonneg h1]
      exact ⟨Int.floor_le q, Int.lt_floor_add_one q⟩
    · push_neg at hq
      rw [if_neg (not_le.mpr hq)]
      have h1 : (⌈q⌉ : ℚ) ≤ 0 := by
        have : ⌈q⌉ ≤ (0 : ℤ) := Int.ceil_le.mpr (by exact_mod_cast hq.le)
        exact_mod_cast this
      rw [abs_of_nonpos hq.le, abs_of_nonpos h1]
      have h2 := Int.le_ceil q
      have h3 := Int.ceil_lt_add_one q
      constructor
      · linarith
      · linarith
  · norm_num [runFrom, step, stepAbs, stepKey, stepSyn, resolveSide, intTrunc,
      EV_ABS, EV_KEY, EV_SYN, ABS_X, ABS_Y, BTN_TOUCH, SCREEN_WIDTH, initState,
      evsSens2, cfgSens2, evAbsX, evAbsY, evTouchDown, evSyncFrame,
      Option.some_ne_none]

/-- C4: the region resolver returns Left exactly when the touch X
coordinate is strictly below half the screen width (stated integrally as
`2 * x < w`), Right otherwise; the spec's concrete cases hold, with the
boundary 960 resolving Right; and the side recorded by a touch-start is
resolved from the X coordinate current at that moment. -/
theorem resolveSideSpec :
    (∀ x w : ℤ, resolveSide x w = Side.left ↔ 2 * x < w) ∧
    (∀ x w : ℤ, resolveSide x w = Side.right ↔ w ≤ 2 * x) ∧
    (resolveSide 100 1920 = Side.left ∧ resolveSide 1800 1920 = Side.right ∧
      resolveSide 960 1920 = Side.right) ∧
    (∀ (cfg : Config) (s : LoopState) (ev : RawEvent),
      ev.etype = EV_KEY → ev.code = BTN_TOUCH → ev.value = 1 →
      s.touching = none →
      (step cfg s ev).1.touching = some (resolveSide s.x SCREEN_WIDTH)) := by
  have halfIff : ∀ x w : ℤ, ((x : ℚ) < (w : ℚ) / 2 ↔ 2 * x < w) := by
    intro x w
    rw [lt_div_iff₀ (by norm_num : (0:ℚ) < 2),
      show ((x : ℚ) * 2 = ((2 * x : ℤ) : ℚ)) from by push_cast; ring]
    exact Int.cast_lt
  refine ⟨?_, ?_, ?_, ?_⟩
  · intro x w
    unfold resolveSide
    by_cases h : (x : ℚ) < (w : ℚ) / 2
    · rw [if_pos h]
      exact iff_of_true rfl ((halfIff x w).mp h)
    · rw [if_neg h]
      exact iff_of_false (fun hc => Side.noConfusion hc)
        (fun hc => h ((halfIff x w).mpr hc))
  · intro x w
    unfold resolveSide
    by_cases h : (x : ℚ) < (w : ℚ) / 2
    · rw [if_pos h]
      exact iff_of_false (fun hc => Side.noConfusion hc)
        (fun hc => absurd ((halfIff x w).mp h) (not_lt.mpr hc))
    · rw [if_neg h]
      exact iff_of_true rfl (not_lt.mp (fun hc => h ((halfIff x w).mpr hc)))
  · refine ⟨?_, ?_, ?_⟩ <;> norm_num [resolveSide]
  · intro cfg s ev h1 h2 h3 h4
    rw [step_start cfg s ev h1 h2 h3 h4]

/-- Witness for `resolveSideSpec`: the boundary case evaluates, and a
concrete touch-start at the initial coordinates records the resolved
side. -/
theorem resolveSideSpecWitness :
    resolveSide 960 1920 = Side.right ∧
    (step cfgSens2 initState evTouchDown).1.touching =
      some (resolveSide initState.x SCREEN_WIDTH) := by
  refine ⟨resolveSideSpec.2.2.1.2.2, ?_⟩
  exact resolveSideSpec.2.2.2 cfgSens2 initState evTouchDown rfl rfl rfl rfl

/-- C1 counterexample: with sensitivity 0.5, after a touch-start at
(100,100) and an axis update to x = 101, the state before the sync has
`last_x = 100`, and the sync-while-touching writes no axis deltas (both
truncate to zero, so its only output is the `syn()`) yet still updates
`last_x` to 101 — refuting the claim that `last_x`/`last_y` are not
updated after a sync-while-touching whose deltas are both zero. -/
theorem zeroDeltaBaselineCounterexample :
    (runFrom cfgSensHalf initState evsSensHalf).1.last_x = 100 ∧
    (step cfgSensHalf (runFrom cfgSensHalf initState evsSensHalf).1
      evSyncFrame).2 = [Output.syn] ∧
    (step cfgSensHalf (runFrom cfgSensHalf initState evsSensHalf).1
      evSyncFrame).1.last_x = 101 := by
  norm_num [runFrom, step, stepAbs, stepKey, stepSyn, resolveSide, intTrunc,
    EV_ABS, EV_KEY, EV_SYN, ABS_X, ABS_Y, BTN_TOUCH, SCREEN_WIDTH, initState,
    evsSensHalf, cfgSensHalf, evAbsX, evAbsY, evTouchDown, evSyncFrame,
    Option.some_ne_none]

/-- C1 (amended): `last_x`/`last_y` are set exactly at touch-start to the
current `x`/`y`, are updated to the current `x`/`y` after every
sync-while-touching — regardless of whether the deltas were zero — and
are unchanged by every other event. -/
theorem lastBaselineUpdatePolicy (cfg : Config) (s : LoopState) (ev : RawEvent) :
    ((ev.etype = EV_KEY ∧ ev.code = BTN_TOUCH ∧ ev.value = 1 ∧
        s.touching = none) →
      (step cfg s ev).1.last_x = s.x ∧ (step cfg s ev).1.last_y = s.y) ∧
    ((ev.etype = EV_SYN ∧ s.touching ≠ none) →
      (step cfg s ev).1.last_x = s.x ∧ (step cfg s ev).1.last_y = s.y) ∧
    ((¬(ev.etype = EV_KEY ∧ ev.code = BTN_TOUCH ∧ ev.value = 1 ∧
          s.touching = none) ∧
      ¬(ev.etype = EV_SYN ∧ s.touching ≠ none)) →
      (step cfg s ev).1.last_x = s.last_x ∧
      (step cfg s ev).1.last_y = s.last_y) := by
  refine ⟨?_, ?_, ?_⟩
  · rintro ⟨h1, h2, h3, h4⟩
    rw [step_start cfg s ev h1 h2 h3 h4]
    exact ⟨rfl, rfl⟩
  · rintro ⟨h1, h2⟩
    rw [step_syn cfg s ev h1 h2]
    exact ⟨rfl, rfl⟩
  · rintro ⟨hns, hnsyn⟩
    have habx : (stepAbs s ev).last_x = s.last_x := stepAbs_last_x s ev
    have haby : (stepAbs s ev).last_y = s.last_y := stepAbs_last_y s ev
    have habt : (stepAbs s ev).touching = s.touching := stepAbs_touching s ev
    by_cases hk : ev.etype = EV_KEY ∧ ev.code = BTN_TOUCH
    · have hsynne : ∀ t : LoopState, stepSyn cfg t ev = (t, []) := fun t =>
        stepSyn_of_ne cfg t ev
          (fun hc => by rw [hk.1] at hc; exact absurd hc.1 (by decide))
      rcases ht : s.touching with _ | side0
      · have hv : ev.value ≠ 1 := fun hv => hns ⟨hk.1, hk.2, hv, ht⟩
        have hkey := stepKey_none_nonpress cfg (stepAbs s ev) ev
          (by rw [habt, ht]) hv
        simp only [step, hkey, hsynne]
        exact ⟨habx, haby⟩
      · by_cases hv : ev.value = 0
        · have hkey := stepKey_end cfg (stepAbs s ev) ev side0
            (by rw [habt, ht]) hk.1 hk.2 hv
          simp only [step, hkey, hsynne]
          exact ⟨habx, haby⟩
        · have hkey := stepKey_some_press cfg (stepAbs s ev) ev side0
            (by rw [habt, ht]) hv
          simp only [step, hkey, hsynne]
          exact ⟨habx, haby⟩
    · have hkey := stepKey_of_ne cfg (stepAbs s ev) ev hk
      by_cases hsy : ev.etype = EV_SYN
      · have ht : s.touching = none := by
          by_contra hc
          exact hnsyn ⟨hsy, hc⟩
        have hsynne : stepSyn cfg (stepAbs s ev) ev = (stepAbs s ev, []) :=
          stepSyn_of_ne cfg (stepAbs s ev) ev (fun hc => hc.2 (by rw [habt, ht]))
        simp only [step, hkey, hsynne]
        exact ⟨habx, haby⟩
      · have hsynne : stepSyn cfg (stepAbs s ev) ev = (stepAbs s ev, []) :=
          stepSyn_of_ne cfg (stepAbs s ev) ev (fun hc => hsy hc.1)
        simp only [step, hkey, hsynne]
        exact ⟨habx, haby⟩

/-- Witness for `lastBaselineUpdatePolicy` at concrete inputs: a concrete
touch-start sets the baseline to the current coordinates, a concrete
sync-while-touching rewrites it, and a concrete axis update while idle
leaves it unchanged. -/
theorem lastBaselineUpdatePolicyWitness :
    ((step cfgSens2 initState evTouchDown).1.last_x = initState.x ∧
     (step cfgSens2 initState evTouchDown).1.last_y = initState.y) ∧
    ((step cfgSens2 sTouchingLeft evSyncFrame).1.last_x = sTouchingLeft.x ∧
     (step cfgSens2 sTouchingLeft evSyncFrame).1.last_y = sTouchingLeft.y) ∧
    ((step cfgSens2 initState (evAbsX 42)).1.last_x = initState.last_x ∧
     (step cfgSens2 initState (evAbsX 42)).1.last_y = initState.last_y) := by
  refine ⟨?_, ?_, ?_⟩
  · exact (lastBaselineUpdatePolicy cfgSens2 initState evTouchDown).1 (by decide)
  · exact (lastBaselineUpdatePolicy cfgSens2 sTouchingLeft evSyncFrame).2.1
      (by decide)
  · exact (lastBaselineUpdatePolicy cfgSens2 initState (evAbsX 42)).2.2
      (by decide)

/-- C2: on a sync frame while touching, the loop emits a relative-X write
exactly when the truncated X delta is non-zero (and then with exactly that
value), a relative-Y write exactly when the truncated Y delta is non-zero,
and exactly one `syn()` call, which comes after the writes; a sync frame
with zero net movement yields exactly `[syn]` — one `syn()`, no axis
writes. -/
theorem syncFrameWrites (cfg : Config) (s : LoopState) (ev : RawEvent)
    (h1 : ev.etype = EV_SYN) (h2 : s.touching ≠ none) :
    synCount (step cfg s ev).2 = 1 ∧
    (∀ d : ℤ, Output.write RelAxis.relX d ∈ (step cfg s ev).2 ↔
      (d = intTrunc (((s.x - s.last_x : ℤ) : ℚ) * cfg.sensitivity) ∧ d ≠ 0)) ∧
    (∀ d : ℤ, Output.write RelAxis.relY d ∈ (step cfg s ev).2 ↔
      (d = intTrunc (((s.y - s.last_y : ℤ) : ℚ) * cfg.sensitivity) ∧ d ≠ 0)) ∧
    ((step cfg s ev).2.getLast? = some Output.syn) ∧
    (intTrunc (((s.x - s.last_x : ℤ) : ℚ) * cfg.sensitivity) = 0 →
     intTrunc (((s.y - s.last_y : ℤ) : ℚ) * cfg.sensitivity) = 0 →
      (step cfg s ev).2 = [Output.syn]) := by
  rw [step_syn cfg s ev h1 h2]
  set dx := intTrunc (((s.x - s.last_x : ℤ) : ℚ) * cfg.sensitivity) with hdx
  set dy := intTrunc (((s.y - s.last_y : ℤ) : ℚ) * cfg.sensitivity) with hdy
  by_cases hx : dx = 0 <;> by_cases hy : dy = 0 <;>
    refine ⟨?_, ?_, ?_, ?_, ?_⟩ <;>
    simp [hx, hy, synCount]

/-- Witness for `syncFrameWrites`: a concrete zero-movement sync frame
while touching yields exactly one `syn()` and no axis writes. -/
theorem syncFrameWritesWitness :
    synCount (step cfgSens2 sTouchingLeft evSyncFrame).2 = 1 ∧
    (step cfgSens2 sTouchingLeft evSyncFrame).2 = [Output.syn] := by
  have h := syncFrameWrites cfgSens2 sTouchingLeft evSyncFrame rfl (by decide)
  refine ⟨h.1, h.2.2.2.2 ?_ ?_⟩
  · norm_num [sTouchingLeft, cfgSens2, intTrunc]
  · norm_num [sTouchingLeft, cfgSens2, intTrunc]

theorem step_idle_quiet (cfg : Config) (s : LoopState) (ev : RawEvent)
    (h : ev.etype = EV_ABS ∨ ev.etype = EV_SYN) (hs : s.touching = none) :
    (step cfg s ev).1.touching = none ∧ (step cfg s ev).2 = [] := by
  have hknot : ¬(ev.etype = EV_KEY ∧ ev.code = BTN_TOUCH) := fun hc => by
    rcases h with h | h <;> rw [h] at hc <;> exact absurd hc.1 (by decide)
  have habs : (stepAbs s ev).touching = none := by rw [stepAbs_touching, hs]
  have hkey := stepKey_of_ne cfg (stepAbs s ev) ev hknot
  have hsyn : stepSyn cfg (stepAbs s ev) ev = (stepAbs s ev, []) :=
    stepSyn_of_ne cfg (stepAbs s ev) ev (fun hc => hc.2 habs)
  simp only [step, hkey, hsyn]
  simp [habs]

/-- C5: for any sequence of axis updates and sync frames (no touch-start),
starting from an idle state: `touching` stays `none` and the whole run
produces no outputs; a touch-start appended right after the sequence
takes its baseline from the final `x`/`y` (fresh coordinates); and the
axis updates do update `x`/`y` in any state. -/
theorem idleAxisUpdatesQuiet (cfg : Config) (s : LoopState)
    (evs : List RawEvent)
    (hevs : ∀ ev ∈ evs, ev.etype = EV_ABS ∨ ev.etype = EV_SYN)
    (hs : s.touching = none) :
    (runFrom cfg s evs).1.touching = none ∧
    (runFrom cfg s evs).2 = [] ∧
    (runFrom cfg s (evs ++ [evTouchDown])).1.last_x =
      (runFrom cfg s evs).1.x ∧
    (runFrom cfg s (evs ++ [evTouchDown])).1.last_y =
      (runFrom cfg s evs).1.y ∧
    (∀ (t : LoopState) (v : ℤ), (step cfg t (evAbsX v)).1.x = v ∧
      (step cfg t (evAbsY v)).1.y = v) := by
  have main : ∀ (l : List RawEvent) (t : LoopState),
      (∀ ev ∈ l, ev.etype = EV_ABS ∨ ev.etype = EV_SYN) → t.touching = none →
      (runFrom cfg t l).1.touching = none ∧ (runFrom cfg t l).2 = [] := by
    intro l
    induction l with
    | nil => intro t _ ht; exact ⟨ht, rfl⟩
    | cons ev rest ih =>
      intro t hl ht
      have hstep := step_idle_quiet cfg t ev (hl ev (by simp)) ht
      have hrest := ih (step cfg t ev).1
        (fun e he => hl e (by simp [he])) hstep.1
      simp only [runFrom]
      exact ⟨hrest.1, by rw [hstep.2, hrest.2]; rfl⟩
  have hmain := main evs s hevs hs
  have hstart := step_start cfg (runFrom cfg s evs).1 evTouchDown
    rfl rfl rfl hmain.1
  refine ⟨hmain.1, hmain.2, ?_, ?_, ?_⟩
  · rw [runFrom_append]
    simp only [runFrom]
    rw [hstart]
  · rw [runFrom_append]
    simp only [runFrom]
    rw [hstart]
  · intro t v
    constructor
    · have hkey := stepKey_of_ne cfg (stepAbs t (evAbsX v)) (evAbsX v)
        (fun hc => by simp [evAbsX, EV_ABS, EV_KEY] at hc)
      have hsyn := stepSyn_of_ne cfg (stepAbs t (evAbsX v)) (evAbsX v)
        (fun hc => by simp [evAbsX, EV_ABS, EV_SYN] at hc)
      simp only [step, hkey, hsyn]
      simp [stepAbs, evAbsX, EV_ABS, ABS_X]
    · have hkey := stepKey_of_ne cfg (stepAbs t (evAbsY v)) (evAbsY v)
        (fun hc => by simp [evAbsY, EV_ABS, EV_KEY] at hc)
      have hsyn := stepSyn_of_ne cfg (stepAbs t (evAbsY v)) (evAbsY v)
        (fun hc => by simp [evAbsY, EV_ABS, EV_SYN] at hc)
      simp only [step, hkey, hsyn]
      simp [stepAbs, evAbsY, EV_ABS, ABS_X, ABS_Y]

/-- Witness for `idleAxisUpdatesQuiet`: a concrete idle sequence of axis
updates and a sync frame stays idle, emits nothing, and a touch-start
right after takes its baseline from the final coordinates. -/
theorem idleAxisUpdatesQuietWitness :
    (runFrom cfgSens2 initState [evAbsX 5, evSyncFrame, evAbsY 7]).1.touching
      = none ∧
    (runFrom cfgSens2 initState [evAbsX 5, evSyncFrame, evAbsY 7]).2 = [] ∧
    (runFrom cfgSens2 initState
        ([evAbsX 5, evSyncFrame, evAbsY 7] ++ [evTouchDown])).1.last_x =
      (runFrom cfgSens2 initState [evAbsX 5, evSyncFrame, evAbsY 7]).1.x := by
  have h := idleAxisUpdatesQuiet cfgSens2 initState
    [evAbsX 5, evSyncFrame, evAbsY 7] (by decide) rfl
  exact ⟨h.1, h.2.1, h.2.2.1⟩

/-! ## Overlay command machinery -/

theorem overlayCmds_append (l1 l2 : List Output) :
    overlayCmds (l1 ++ l2) = overlayCmds l1 ++ overlayCmds l2 := by
  induction l1 with
  | nil => rfl
  | cons o rest ih =>
    cases o with
    | write a d => simp [overlayCmds, ih]
    | syn => simp [overlayCmds, ih]
    | inject c =>
      cases c with
      | rumble a b => simp [overlayCmds, ih]
      | overlayShow i x y w h col bs => simp [overlayCmds, ih]
      | overlayHide i => simp [overlayCmds, ih]

theorem overlayCmds_haptic (b : Bool) :
    overlayCmds (if b then
      [Output.inject (Command.rumble 0.6 0.6), Output.inject (Command.rumble 0 0)]
    else []) = [] := by
  cases b <;> simp [overlayCmds]

theorem overlayCmds_border (b : Bool) (side : Side) :
    overlayCmds (if b then [Output.inject (borderRect side)] else []) =
      (if b then [borderRect side] else []) := by
  cases b <;> simp [overlayCmds, borderRect]

theorem overlayCmds_hide (b : Bool) (i : String) :
    overlayCmds (if b then [Output.inject (Command.overlayHide i)] else []) =
      (if b then [Command.overlayHide i] else []) := by
  cases b <;> simp [overlayCmds]

theorem overlayCmds_stepSyn_out (c1 c2 : Prop) [Decidable c1] [Decidable c2]
    (d1 d2 : ℤ) :
    overlayCmds ((if c1 then [Output.write RelAxis.relX d1] else []) ++
      (if c2 then [Output.write RelAxis.relY d2] else []) ++ [Output.syn]) = [] := by
  split_ifs <;> simp [overlayCmds]

theorem step_quiet (cfg : Config) (s : LoopState) (ev : RawEvent)
    (hns : ¬(ev.etype = EV_KEY ∧ ev.code = BTN_TOUCH ∧ ev.value = 1 ∧
      s.touching = none))
    (hne : ¬(ev.etype = EV_KEY ∧ ev.code = BTN_TOUCH ∧ ev.value = 0 ∧
      s.touching ≠ none))
    (hnsyn : ¬(ev.etype = EV_SYN ∧ s.touching ≠ none)) :
    (step cfg s ev).1.touching = s.touching ∧ (step cfg s ev).2 = [] := by
  have habt : (stepAbs s ev).touching = s.touching := stepAbs_touching s ev
  by_cases hk : ev.etype = EV_KEY ∧ ev.code = BTN_TOUCH
  · have hsynne : ∀ t : LoopState, stepSyn cfg t ev = (t, []) := fun t =>
      stepSyn_of_ne cfg t ev
        (fun hc => by rw [hk.1] at hc; exact absurd hc.1 (by decide))
    rcases ht : s.touching with _ | side0
    · have hv : ev.value ≠ 1 := fun hv => hns ⟨hk.1, hk.2, hv, ht⟩
      have hkey := stepKey_none_nonpress cfg (stepAbs s ev) ev
        (by rw [habt, ht]) hv
      simp only [step, hkey, hsynne]
      simp [habt, ht]
    · have hv : ev.value ≠ 0 := fun hv =>
        hne ⟨hk.1, hk.2, hv, by rw [ht]; exact Option.some_ne_none side0⟩
      have hkey := stepKey_some_press cfg (stepAbs s ev) ev side0
        (by rw [habt, ht]) hv
      simp only [step, hkey, hsynne]
      simp [habt, ht]
  · have hkey := stepKey_of_ne cfg (stepAbs s ev) ev hk
    by_cases hsy : ev.etype = EV_SYN
    · have ht : s.touching = none := by
        by_contra hc
        exact hnsyn ⟨hsy, hc⟩
      have hsynne : stepSyn cfg (stepAbs s ev) ev = (stepAbs s ev, []) :=
        stepSyn_of_ne cfg (stepAbs s ev) ev (fun hc => hc.2 (by rw [habt, ht]))
      simp only [step, hkey, hsynne]
      simp [habt]
    · have hsynne : stepSyn cfg (stepAbs s ev) ev = (stepAbs s ev, []) :=
        stepSyn_of_ne cfg (stepAbs s ev) ev (fun hc => hsy hc.1)
      simp only [step, hkey, hsynne]
      simp [habt]

theorem step_overlay_cases (cfg : Config) (s : LoopState) (ev : RawEvent) :
    (overlayCmds (step cfg s ev).2 = [] ∧
      (step cfg s ev).1.touching = s.touching) ∨
    (∃ side, s.touching = none ∧
      overlayCmds (step cfg s ev).2 =
        (if cfg.show_debug_borders then [borderRect side] else []) ∧
      (step cfg s ev).1.touching = some side) ∨
    (∃ side0, s.touching = some side0 ∧
      overlayCmds (step cfg s ev).2 =
        (if cfg.show_debug_borders then
          [Command.overlayHide (debugId side0)] else []) ∧
      (step cfg s ev).1.touching = none) := by
  by_cases hstart : ev.etype = EV_KEY ∧ ev.code = BTN_TOUCH ∧ ev.value = 1 ∧
      s.touching = none
  · right; left
    refine ⟨resolveSide s.x SCREEN_WIDTH, hstart.2.2.2, ?_, ?_⟩
    · rw [step_start cfg s ev hstart.1 hstart.2.1 hstart.2.2.1 hstart.2.2.2,
        overlayCmds_append, overlayCmds_haptic, overlayCmds_border]
      rfl
    · rw [step_start cfg s ev hstart.1 hstart.2.1 hstart.2.2.1 hstart.2.2.2]
  · by_cases hend : ev.etype = EV_KEY ∧ ev.code = BTN_TOUCH ∧ ev.value = 0 ∧
        s.touching ≠ none
    · right; right
      obtain ⟨side0, hside0⟩ : ∃ side0, s.touching = some side0 :=
        Option.ne_none_iff_exists'.mp hend.2.2.2
      refine ⟨side0, hside0, ?_, ?_⟩
      · rw [step_end cfg s ev side0 hside0 hend.1 hend.2.1 hend.2.2.1,
          overlayCmds_hide]
      · rw [step_end cfg s ev side0 hside0 hend.1 hend.2.1 hend.2.2.1]
    · left
      by_cases hsy : ev.etype = EV_SYN ∧ s.touching ≠ none
      · constructor
        · rw [step_syn cfg s ev hsy.1 hsy.2]
          exact overlayCmds_stepSyn_out _ _ _ _
        · rw [step_syn cfg s ev hsy.1 hsy.2]
      · have hns : ¬(ev.etype = EV_KEY ∧ ev.code = BTN_TOUCH ∧ ev.value = 1 ∧
            s.touching = none) := hstart
        have h := step_quiet cfg s ev hns hend hsy
        exact ⟨by rw [h.2]; rfl, h.1⟩

theorem pairedFrom_runFrom (cfg : Config)
    (hb : cfg.show_debug_borders = true) :
    ∀ (evs : List RawEvent) (s : LoopState),
      pairedFrom s.touching (overlayCmds (runFrom cfg s evs).2) = true := by
  intro evs
  induction evs with
  | nil =>
    intro s
    simp only [runFrom, overlayCmds]
    cases s.touching <;> rfl
  | cons ev rest ih =>
    intro s
    simp only [runFrom]
    rw [overlayCmds_append]
    rcases step_overlay_cases cfg s ev with ⟨h1, h2⟩ |
      ⟨side, hnone, h1, h2⟩ | ⟨side0, hsome, h1, h2⟩
    · rw [h1, List.nil_append, ← h2]
      exact ih (step cfg s ev).1
    · rw [hb] at h1
      simp only [if_true] at h1
      rw [h1, hnone, List.singleton_append]
      have hih := ih (step cfg s ev).1
      rw [h2] at hih
      cases side
      · simp only [pairedFrom, borderRect, if_true]
        exact hih
      · simp only [pairedFrom, borderRect, if_true]
        exact hih
    · rw [hb] at h1
      simp only [if_true] at h1
      rw [h1, hsome, List.singleton_append]
      have hih := ih (step cfg s ev).1
      rw [h2] at hih
      simp only [pairedFrom, Bool.and_eq_true, decide_eq_true_eq]
      exact ⟨trivial, hih⟩

/-- C6: with debug borders enabled — a touch-end emits exactly one
hide-overlay command whose id is that of the side stored at the
corresponding touch-start (whatever the current `x` is); a touch-start's
only overlay command is the show for the side it records; events that are
neither touch-start nor touch-end preserve the stored side; a
touch-button release while no touch is active emits nothing; and over any
run the overlay commands form properly alternating show/hide pairs with
matching ids. -/
theorem debugOverlayPairing (cfg : Config)
    (hb : cfg.show_debug_borders = true) :
    (∀ (s : LoopState) (ev : RawEvent) (side0 : Side),
      s.touching = some side0 → ev.etype = EV_KEY → ev.code = BTN_TOUCH →
      ev.value = 0 →
      (step cfg s ev).2 =
        [Output.inject (Command.overlayHide (debugId side0))]) ∧
    (∀ (s : LoopState) (ev : RawEvent), s.touching = none →
      ev.etype = EV_KEY → ev.code = BTN_TOUCH → ev.value = 1 →
      overlayCmds (step cfg s ev).2 =
        [borderRect (resolveSide s.x SCREEN_WIDTH)] ∧
      (step cfg s ev).1.touching = some (resolveSide s.x SCREEN_WIDTH)) ∧
    (∀ (s : LoopState) (ev : RawEvent),
      ¬(ev.etype = EV_KEY ∧ ev.code = BTN_TOUCH ∧ ev.value = 1 ∧
        s.touching = none) →
      ¬(ev.etype = EV_KEY ∧ ev.code = BTN_TOUCH ∧ ev.value = 0 ∧
        s.touching ≠ none) →
      (step cfg s ev).1.touching = s.touching) ∧
    (∀ (s : LoopState) (ev : RawEvent), s.touching = none → ev.value = 0 →
      (step cfg s ev).2 = []) ∧
    (∀ (s : LoopState) (evs : List RawEvent),
      pairedFrom s.touching (overlayCmds (runFrom cfg s evs).2) = true) := by
  refine ⟨?_, ?_, ?_, ?_, ?_⟩
  · intro s ev side0 h0 h1 h2 h3
    rw [step_end cfg s ev side0 h0 h1 h2 h3, hb]
    simp
  · intro s ev h4 h1 h2 h3
    constructor
    · rw [step_start cfg s ev h1 h2 h3 h4, overlayCmds_append,
        overlayCmds_haptic, overlayCmds_border, hb]
      simp
    · rw [step_start cfg s ev h1 h2 h3 h4]
  · intro s ev hns hne
    by_cases hsy : ev.etype = EV_SYN ∧ s.touching ≠ none
    · rw [step_syn cfg s ev hsy.1 hsy.2]
    · exact (step_quiet cfg s ev hns hne hsy).1
  · intro s ev h4 h3
    refine (step_quiet cfg s ev ?_ ?_ ?_).2
    · rintro ⟨_, _, hv, _⟩
      rw [h3] at hv
      exact absurd hv (by decide)
    · rintro ⟨_, _, _, ht⟩
      exact ht h4
    · rintro ⟨_, ht⟩
      exact ht h4
  · intro s evs
    exact pairedFrom_runFrom cfg hb evs s

/-- Witness for `debugOverlayPairing` at concrete inputs: a concrete
touch-end emits the matching hide, a concrete touch-start emits the show,
a mid-touch axis update preserves the stored side, an idle release emits
nothing, and a concrete full touch that crosses the midpoint produces
paired overlay commands. -/
theorem debugOverlayPairingWitness :
    (step cfgBorders sTouchingLeft evTouchUp).2 =
      [Output.inject (Command.overlayHide (debugId Side.left))] ∧
    overlayCmds (step cfgBorders initState evTouchDown).2 =
      [borderRect (resolveSide initState.x SCREEN_WIDTH)] ∧
    (step cfgBorders sTouchingLeft (evAbsX 1000)).1.touching =
      sTouchingLeft.touching ∧
    (step cfgBorders initState evTouchUp).2 = [] ∧
    pairedFrom initState.touching
      (overlayCmds (runFrom cfgBorders initState
        [evTouchDown, evAbsX 1500, evTouchUp]).2) = true := by
  have h := debugOverlayPairing cfgBorders rfl
  exact ⟨h.1 sTouchingLeft evTouchUp Side.left rfl rfl rfl rfl,
    (h.2.1 initState evTouchDown rfl rfl rfl rfl).1,
    h.2.2.1 sTouchingLeft (evAbsX 1000) (by decide) (by decide),
    h.2.2.2.1 initState evTouchUp rfl rfl,
    h.2.2.2.2 initState [evTouchDown, evAbsX 1500, evTouchUp]⟩

/-- C7 counterexample: at a concrete touch-start on the left half with
debug borders enabled, the emitted show-overlay command's id is the
string `sps_debug_left`, which is not the `debug-left` id stated by the
claim. -/
theorem overlayIdCounterexample :
    overlayCmds (step cfgBorders initState evTouchDown).2 =
      [Command.overlayShow "sps_debug_left" 0 0 960 1080 (255, 0, 0, 100) 5] ∧
    ("sps_debug_left" : String) ≠ "debug-left" := by
  constructor
  · norm_num [step, stepAbs, stepKey, stepSyn, resolveSide, overlayCmds,
      borderRect, debugId, sideStr, EV_ABS, EV_KEY, EV_SYN, ABS_X, ABS_Y,
      BTN_TOUCH, SCREEN_WIDTH, SCREEN_HEIGHT, initState, cfgBorders,
      evTouchDown, Option.some_ne_none]
    decide
  · decide

/-- C7 (amended): on a touch-start with debug borders enabled, the only
overlay command emitted is a show-overlay whose id is `sps_debug_<side>`
for the resolved side, whose rectangle covers the touched screen half
(left half starts at x 0, right half at x 960; width 960 — half of the
1920 screen — and full height 1080), with the fixed semi-transparent red
color (255, 0, 0, 100) and fixed border size 5. -/
theorem overlayShowCommandSpec (cfg : Config) (s : LoopState) (ev : RawEvent)
    (hb : cfg.show_debug_borders = true) (h1 : ev.etype = EV_KEY)
    (h2 : ev.code = BTN_TOUCH) (h3 : ev.value = 1) (h4 : s.touching = none) :
    overlayCmds (step cfg s ev).2 =
      [borderRect (resolveSide s.x SCREEN_WIDTH)] ∧
    borderRect Side.left =
      Command.overlayShow "sps_debug_left" 0 0 960 1080 (255, 0, 0, 100) 5 ∧
    borderRect Side.right =
      Command.overlayShow "sps_debug_right" 960 0 960 1080 (255, 0, 0, 100) 5 := by
  refine ⟨?_, ?_, ?_⟩
  · rw [step_start cfg s ev h1 h2 h3 h4, overlayCmds_append,
      overlayCmds_haptic, overlayCmds_border, hb]
    simp
  · norm_num [borderRect, debugId, sideStr, SCREEN_WIDTH, SCREEN_HEIGHT]
    decide
  · norm_num [borderRect, debugId, sideStr, SCREEN_WIDTH, SCREEN_HEIGHT]
    decide

/-- Witness for `overlayShowCommandSpec`: a concrete touch-start on the
right half with debug borders enabled. -/
theorem overlayShowCommandSpecWitness :
    overlayCmds (step cfgBorders { initState with x := 1500 } evTouchDown).2 =
      [borderRect (resolveSide ({ initState with x := 1500 } : LoopState).x
        SCREEN_WIDTH)] ∧
    borderRect Side.right =
      Command.overlayShow "sps_debug_right" 960 0 960 1080 (255, 0, 0, 100) 5 := by
  have h := overlayShowCommandSpec cfgBorders { initState with x := 1500 }
    evTouchDown rfl rfl rfl rfl rfl
  exact ⟨h.1, h.2.2⟩

/-! ## Loop lifecycle machinery -/

theorem closeCount_append (l1 l2 : List TraceEv) :
    closeCount (l1 ++ l2) = closeCount l1 + closeCount l2 := by
  induction l1 with
  | nil => simp [closeCount]
  | cons t rest ih =>
    cases t with
    | createVirtual => simp [closeCount, ih]
    | openSource => simp [closeCount, ih]
    | closeVirtual => simp [closeCount, ih]; omega
    | out o => simp [closeCount, ih]

theorem closeCount_map_out (l : List Output) :
    closeCount (l.map TraceEv.out) = 0 := by
  induction l with
  | nil => rfl
  | cons o rest ih => simp [closeCount, ih]

theorem runAux_threshold (cfg : Config) (k : Nat) :
    ∀ (evs : List RawEvent) (i : Nat) (s : LoopState),
      runAux cfg (fun n => decide (k ≤ n)) i s evs =
        runFrom cfg s (evs.take (k - i)) := by
  intro evs
  induction evs with
  | nil => intro i s; simp [runAux, runFrom]
  | cons ev rest ih =>
    intro i s
    by_cases h : k ≤ i
    · have hk : k - i = 0 := Nat.sub_eq_zero_of_le h
      rw [hk]
      simp only [List.take_zero, runFrom, runAux]
      rw [if_pos (by simp [h])]
    · have hm : k - i = (k - (i + 1)) + 1 := by omega
      rw [hm]
      simp only [List.take_succ_cons, runFrom, runAux]
      rw [if_neg (by simp [h]), ih (i + 1) (step cfg s ev).1]

theorem closeCount_loop_steady (cfg : Config) (cancel : Nat → Bool)
    (events : List RawEvent) :
    closeCount (inputThreadLoop true true cfg cancel events) = 1 := by
  simp only [inputThreadLoop]
  rw [if_neg (by decide), if_neg (by decide)]
  rw [closeCount_append, closeCount_append, closeCount_map_out]
  rfl

/-- C8: with a cancellation signal first observed at iteration `k`, the
loop's trace is exactly: device setup, then the outputs of processing only
the first `k` events, then a single close — the loop exits before
processing the event at which cancellation is observed; and for every
cancellation pattern whatever (including none: natural stream end) the
virtual device is closed exactly once, never twice. -/
theorem cancellationStopsAndClosesOnce :
    (∀ (cfg : Config) (events : List RawEvent) (k : Nat),
      inputThreadLoop true true cfg (fun i => decide (k ≤ i)) events =
        [TraceEv.createVirtual, TraceEv.openSource] ++
          (runFrom cfg initState (events.take k)).2.map TraceEv.out ++
          [TraceEv.closeVirtual]) ∧
    (∀ (cfg : Config) (cancel : Nat → Bool) (events : List RawEvent),
      closeCount (inputThreadLoop true true cfg cancel events) = 1) := by
  constructor
  · intro cfg events k
    simp only [inputThreadLoop]
    rw [if_neg (by decide), if_neg (by decide),
      runAux_threshold cfg k events 0 initState, Nat.sub_zero]
  · intro cfg cancel events
    exact closeCount_loop_steady cfg cancel events

/-- C9: an `update` whose configuration matches the previous `enabled` and
`device_path` performs no thread stop or start actions and leaves the
stored loop-thread handle unchanged — only the live-read fields
(sensitivity, haptics flag, debug-borders flag) are refreshed — so
repeated identical `enabled = true` updates never spawn a second loop
thread. -/
theorem updateSameConfigNoRestart (p : PluginState) (c : UpdateConf)
    (newId : Nat) (he : c.enable = p.enabled)
    (hd : c.device_path = p.touch_device_path) :
    (update p c newId).2 = [] ∧
    (update p c newId).1.input_thread = p.input_thread ∧
    (update p c newId).1 =
      { p with sensitivity := c.sensitivity,
               enable_haptics := c.enable_haptics,
               show_debug_borders := c.show_debug_borders } := by
  simp only [update]
  split
  · next hcond =>
    rcases hcond with hq | hq
    · exact absurd he.symm hq
    · exact absurd hd.symm hq
  · exact ⟨rfl, rfl, rfl⟩

/-- Witness for `updateSameConfigNoRestart`: a running plugin updated with
an identical `enable`/`device_path` configuration keeps its thread and
performs no actions. -/
theorem updateSameConfigNoRestartWitness :
    (update pRunning cSame 7).2 = [] ∧
    (update pRunning cSame 7).1.input_thread = pRunning.input_thread ∧
    (update pRunning cSame 7).1 =
      { pRunning with
          sensitivity := cSame.sensitivity,
          enable_haptics := cSame.enable_haptics,
          show_debug_borders := cSame.show_debug_borders } :=
  updateSameConfigNoRestart pRunning cSame 7 rfl rfl

/-- C10: if the virtual device is created but opening the source device
raises, the loop returns immediately leaving the virtual device open (its
trace is just the creation, with zero closes); if the virtual-device
constructor itself raises nothing is created or closed; and the
close-on-exit guarantee (exactly one close) applies precisely to runs
that reach the event-processing loop. -/
theorem startupFailureLeavesVirtualOpen :
    (∀ (cfg : Config) (cancel : Nat → Bool) (events : List RawEvent),
      inputThreadLoop true false cfg cancel events = [TraceEv.createVirtual] ∧
      closeCount (inputThreadLoop true false cfg cancel events) = 0) ∧
    (∀ (cfg : Config) (cancel : Nat → Bool) (events : List RawEvent),
      inputThreadLoop false false cfg cancel events = [] ∧
      inputThreadLoop false true cfg cancel events = []) ∧
    (∀ (cfg : Config) (cancel : Nat → Bool) (events : List RawEvent),
      closeCount (inputThreadLoop true true cfg cancel events) = 1) := by
  refine ⟨fun cfg cancel events => ⟨rfl, rfl⟩,
    fun cfg cancel events => ⟨rfl, rfl⟩,
    fun cfg cancel events => closeCount_loop_steady cfg cancel events⟩

end SPS
